import Mathlib

/-!
Verification development for the `ts-oop` project-board application.

The repository contains three successive versions of the same TypeScript
program:
  * version 1 (`src/unnamed/part_000`): a `ProjectState` class whose
    `addListener` method is commented out, whose stored project records have
    no `status` field, and whose `addProject` notifies nobody;
  * version 2 (`src/src/app.ts`, first document): the observer-based
    `ProjectState` with `listeners`, `projects`, `addListener`, `addProject`;
  * version 3 (`src/src/app.ts`, second document): the same program after the
    `State<T>` base-class refactor.

JavaScript strings are embedded as `List Char`, and JavaScript numbers as
`JsNum` (NaN, the two infinities, or a finite value represented exactly as a
rational).  The built-ins the code calls (`String.prototype.trim`,
`Number.prototype.toString`, unary `+` on strings, `<`/`>` on numbers) are
embedded following their ECMA-262 semantics at the level of detail the code
observes; the doc comment of each such definition records the scope of the
model.  Listener callbacks are represented by opaque numeric identifiers and
the notifications the store fans out are reified as an explicit event list, so
that invocation order and payloads become provable data.
-/

/-- JavaScript strings are modelled as lists of characters. -/
abbrev JsString := List Char

/-- Models the ECMA-262 white-space set used by `String.prototype.trim`
(space, tab, line feed, carriage return, vertical tab, form feed, no-break
space).  Exotic Unicode space code points are omitted; no character produced
by the number-to-string conversion below is white space of any kind. -/
def isJsWhitespace (c : Char) : Bool :=
  c == ' ' || c == '\t' || c == '\n' || c == '\r' ||
  c == '\u000b' || c == '\u000c' || c == ' '

/-- Models `String.prototype.trim`: drop white space from both ends. -/
def jsTrim (s : JsString) : JsString :=
  ((s.dropWhile isJsWhitespace).reverse.dropWhile isJsWhitespace).reverse

/-- The decimal digit character for `d % 10`. -/
def digitChar (d : Nat) : Char :=
  if d % 10 = 0 then '0'
  else if d % 10 = 1 then '1'
  else if d % 10 = 2 then '2'
  else if d % 10 = 3 then '3'
  else if d % 10 = 4 then '4'
  else if d % 10 = 5 then '5'
  else if d % 10 = 6 then '6'
  else if d % 10 = 7 then '7'
  else if d % 10 = 8 then '8'
  else '9'

/-- Decimal digits of a natural number, most significant first; fuel-indexed
so that the recursion is structural.  `natDigits` supplies enough fuel. -/
def natDigitsAux : Nat → Nat → List Char
  | 0, _ => []
  | fuel + 1, n =>
      if n < 10 then [digitChar n]
      else natDigitsAux fuel (n / 10) ++ [digitChar (n % 10)]

/-- Decimal representation of a natural number (never empty: `0` is `"0"`). -/
def natDigits (n : Nat) : List Char := natDigitsAux (n + 1) n

/-- Decimal digits of the fraction `rem / den` (with `rem < den`), produced by
long division.  The fuel bound 1100 exceeds the longest decimal expansion of
any IEEE-754 double, so for every value a double can take the expansion is
rendered exactly. -/
def fracDigits : Nat → Nat → Nat → List Char
  | _, _, 0 => []
  | rem, den, fuel + 1 =>
      if rem = 0 then []
      else digitChar (rem * 10 / den) :: fracDigits (rem * 10 % den) den fuel

/-- A JavaScript number: NaN, an infinity, or a finite value.  Finite doubles
are embedded exactly into the rationals. -/
inductive JsNum where
  | nan : JsNum
  | posInf : JsNum
  | negInf : JsNum
  | fin : ℚ → JsNum
deriving DecidableEq

/-- Models `Number.prototype.toString` (radix 10): `"NaN"` for NaN,
`"Infinity"` / `"-Infinity"` for the infinities, and otherwise a sign followed
by the decimal digits of the integer part and, when the value is not an
integer, a point and the digits of the fractional part.  The exponent layout
ECMA-262 uses for very large or very small magnitudes is not modelled; it
affects only which digit characters appear, and every claim below depends only
on the output being a non-empty string of non-white-space characters. -/
def JsNum.toJsString : JsNum → JsString
  | .nan => ['N', 'a', 'N']
  | .posInf => ['I', 'n', 'f', 'i', 'n', 'i', 't', 'y']
  | .negInf => ['-', 'I', 'n', 'f', 'i', 'n', 'i', 't', 'y']
  | .fin q =>
      (if q < 0 then ['-'] else []) ++
      natDigits (q.num.natAbs / q.den) ++
      (if q.num.natAbs % q.den = 0 then []
       else '.' :: fracDigits (q.num.natAbs % q.den) q.den 1100)

/-- Models the ECMA-262 Number less-than comparison used by `<`: false
whenever an operand is NaN, standard ordering otherwise. -/
def jsLt : JsNum → JsNum → Bool
  | .nan, _ => false
  | _, .nan => false
  | .posInf, _ => false
  | .negInf, .posInf => true
  | .negInf, .negInf => false
  | .negInf, .fin _ => true
  | .fin _, .posInf => true
  | .fin _, .negInf => false
  | .fin a, .fin b => decide (a < b)

/-- Models `a > b` on numbers, which ECMA-262 defines as `b < a`. -/
def jsGt (a b : JsNum) : Bool := jsLt b a

/-- The type of `Validatable.value` in the source: `string | number`. -/
inductive JsValue where
  | str : JsString → JsValue
  | num : JsNum → JsValue
deriving DecidableEq

/-- Models `value.toString()` on a `string | number` value: a string converts
to itself, a number via `JsNum.toJsString`. -/
def JsValue.toJsString : JsValue → JsString
  | .str s => s
  | .num n => n.toJsString

/-- Numeric value of a decimal digit character, `none` otherwise. -/
def dVal (c : Char) : Option Nat :=
  if '0' ≤ c ∧ c ≤ '9' then some (c.toNat - '0'.toNat) else none

/-- Longest prefix of decimal digits (as digit values) and the rest. -/
def takeDigits : List Char → List Nat × List Char
  | [] => ([], [])
  | c :: r =>
      match dVal c with
      | some d =>
          let p := takeDigits r
          (d :: p.1, p.2)
      | none => ([], c :: r)

/-- Value of a most-significant-first digit list. -/
def digitsVal (ds : List Nat) : Nat := ds.foldl (fun a d => 10 * a + d) 0

/-- The rational denoted by integer digits `ip`, fraction digits `fp` and a
signed decimal exponent. -/
def assembleDec (ip fp : List Nat) (expNeg : Bool) (e : Nat) : ℚ :=
  let n : Nat := digitsVal ip * 10 ^ fp.length + digitsVal fp
  let d : Nat := 10 ^ fp.length
  if expNeg then mkRat n (d * 10 ^ e) else mkRat (n * 10 ^ e) d

/-- Parses an unsigned `StrDecimalLiteral` (digits, optional point and
fraction digits, optional exponent, or `Infinity`), requiring the whole input
to be consumed; `none` when the input is not such a literal. -/
def parseUnsignedDec (l : List Char) : Option JsNum :=
  if l = ['I', 'n', 'f', 'i', 'n', 'i', 't', 'y'] then some .posInf
  else
    let p1 := takeDigits l
    let p2 := match p1.2 with
      | '.' :: r => takeDigits r
      | _ => ([], p1.2)
    if p1.1 = [] ∧ p2.1 = [] then none
    else
      match p2.2 with
      | [] => some (.fin (assembleDec p1.1 p2.1 false 0))
      | e :: r3 =>
          if e = 'e' ∨ e = 'E' then
            let sp : Bool × List Char := match r3 with
              | '+' :: r => (false, r)
              | '-' :: r => (true, r)
              | _ => (false, r3)
            let p3 := takeDigits sp.2
            if p3.1 = [] ∨ p3.2 ≠ [] then none
            else some (.fin (assembleDec p1.1 p2.1 sp.1 (digitsVal p3.1)))
          else none

/-- Models ECMA-262 ToNumber on a string, as invoked by the unary `+` in
`+enteredPeople`: trim white space, the empty remainder is `0`, an optional
sign followed by `Infinity` or a decimal literal gives that value, and
anything else is NaN.  The hexadecimal, octal and binary literal forms are not
modelled; inputs in those forms would land in the NaN case. -/
def jsToNumber (s : JsString) : JsNum :=
  let t := jsTrim s
  match t with
  | [] => .fin 0
  | '-' :: u =>
      (match parseUnsignedDec u with
       | some .posInf => .negInf
       | some (.fin q) => .fin (-q)
       | _ => .nan)
  | '+' :: u =>
      (match parseUnsignedDec u with
       | some v => v
       | none => .nan)
  | u =>
      (match parseUnsignedDec u with
       | some v => v
       | none => .nan)

/-- The `ProjectStatus` enum. -/
inductive ProjectStatus where
  | Active : ProjectStatus
  | Finished : ProjectStatus
deriving DecidableEq

/-- The `Project` class: `id`, `title`, `description`, `people`, `status`. -/
structure Project where
  id : JsString
  title : JsString
  description : JsString
  people : JsNum
  status : ProjectStatus
deriving DecidableEq

/-- One listener invocation performed by the notification loop in
`addProject`: which listener (identified by its registration handle) was
called, with which argument.  Reifying the calls as data makes invocation
order and payloads provable. -/
structure Notification where
  listenerId : Nat
  snapshot : List Project
deriving DecidableEq

/-- The version-2 `ProjectState` class fields: the registered listeners (in
registration order, as opaque handles) and the stored projects.  Both arrays
start empty in the source. -/
structure ProjectState where
  listeners : List Nat
  projects : List Project
deriving DecidableEq

/-- The state a fresh `new ProjectState()` has: both fields `[]`. -/
def ProjectState.initial : ProjectState := { listeners := [], projects := [] }

/-- `addListener(listenerFn) { this.listeners.push(listenerFn); }`. -/
def ProjectState.addListener (s : ProjectState) (f : Nat) : ProjectState :=
  { s with listeners := s.listeners ++ [f] }

/-- `addProject(title, description, numberOfPeople)`: build a `Project` whose
id is `Math.random().toString()`, status `Active`; push it; then call every
listener, in order, with `this.projects.slice()`.  The random draw is passed
in as the environment input `r`, and the listener calls are returned as the
notification list. -/
def ProjectState.addProject (s : ProjectState) (r : JsNum)
    (title description : JsString) (numberOfPeople : JsNum) :
    ProjectState × List Notification :=
  let newProject : Project :=
    { id := r.toJsString, title := title, description := description,
      people := numberOfPeople, status := .Active }
  let projects := s.projects ++ [newProject]
  ({ s with projects := projects },
   s.listeners.map (fun f => { listenerId := f, snapshot := projects }))

/-- The store operations a client can perform after `getInstance`. -/
inductive StoreOp where
  | addListener : Nat → StoreOp
  | addProject : JsNum → JsString → JsString → JsNum → StoreOp
deriving DecidableEq

/-- One store operation on the version-2 state, with the notifications it
emits (`addListener` emits none). -/
def runStep (s : ProjectState) : StoreOp → ProjectState × List Notification
  | .addListener f => (s.addListener f, [])
  | .addProject r t d p => s.addProject r t d p

/-- A sequence of store operations on the version-2 state, collecting all
notifications in emission order. -/
def runTrace (s : ProjectState) : List StoreOp → ProjectState × List Notification
  | [] => (s, [])
  | op :: rest =>
      let out := runStep s op
      let out2 := runTrace out.1 rest
      (out2.1, out.2 ++ out2.2)

/-- The version-3 `State<T>` base class (specialised to `Project`): it owns
the listener array. -/
structure StateV3 where
  listeners : List Nat
deriving DecidableEq

/-- Version 3 `State.addListener`, inherited by `ProjectState`. -/
def StateV3.addListener (s : StateV3) (f : Nat) : StateV3 :=
  { s with listeners := s.listeners ++ [f] }

/-- The version-3 `ProjectState extends State<Project>`: the inherited base
fields plus its own `projects` array. -/
structure ProjectStateV3 where
  base : StateV3
  projects : List Project
deriving DecidableEq

/-- The state a fresh version-3 `new ProjectState()` has. -/
def ProjectStateV3.initial : ProjectStateV3 :=
  { base := { listeners := [] }, projects := [] }

/-- Calling the inherited `addListener` on the version-3 `ProjectState`. -/
def ProjectStateV3.addListener (s : ProjectStateV3) (f : Nat) : ProjectStateV3 :=
  { s with base := s.base.addListener f }

/-- Version 3 `addProject`: identical body to version 2, with the listener
array reached through the base class. -/
def ProjectStateV3.addProject (s : ProjectStateV3) (r : JsNum)
    (title description : JsString) (numberOfPeople : JsNum) :
    ProjectStateV3 × List Notification :=
  let newProject : Project :=
    { id := r.toJsString, title := title, description := description,
      people := numberOfPeople, status := .Active }
  let projects := s.projects ++ [newProject]
  ({ s with projects := projects },
   s.base.listeners.map (fun f => { listenerId := f, snapshot := projects }))

/-- One store operation on the version-3 state. -/
def runStepV3 (s : ProjectStateV3) : StoreOp → ProjectStateV3 × List Notification
  | .addListener f => (s.addListener f, [])
  | .addProject r t d p => s.addProject r t d p

/-- A sequence of store operations on the version-3 state. -/
def runTraceV3 (s : ProjectStateV3) :
    List StoreOp → ProjectStateV3 × List Notification
  | [] => (s, [])
  | op :: rest =>
      let out := runStepV3 s op
      let out2 := runTraceV3 out.1 rest
      (out2.1, out.2 ++ out2.2)

/-- The observable version-2 state corresponding to a version-3 state. -/
def projectStateOfV3 (s : ProjectStateV3) : ProjectState :=
  { listeners := s.base.listeners, projects := s.projects }

/-- The object literal version 1's `addProject` pushes: `id`, `title`,
`description`, `people` — and no `status` field. -/
structure ProjectV1 where
  id : JsString
  title : JsString
  description : JsString
  people : JsNum
deriving DecidableEq

/-- The version-1 `ProjectState` fields: only `projects` (the `listeners`
field is commented out in the source). -/
structure ProjectStateV1 where
  projects : List ProjectV1
deriving DecidableEq

/-- Version 1 `addProject`: push the object literal; there is no notification
loop, so no listener is ever invoked. -/
def ProjectStateV1.addProject (s : ProjectStateV1) (r : JsNum)
    (title description : JsString) (numberOfPeople : JsNum) : ProjectStateV1 :=
  { projects := s.projects ++
      [{ id := r.toJsString, title := title, description := description,
         people := numberOfPeople }] }

/-- A sequence of store operations on the version-1 state.  Version 1 has no
`addListener` method (it is commented out in the source), so a trace that
calls it fails — in the browser the call would raise a `TypeError` — and no
trace ever emits a notification. -/
def runTraceV1 (s : ProjectStateV1) :
    List StoreOp → Option (ProjectStateV1 × List Notification)
  | [] => some (s, [])
  | .addListener _ :: _ => none
  | .addProject r t d p :: rest => runTraceV1 (s.addProject r t d p) rest

/-- The `Validatable` interface: the value plus the optional constraints
(`none` models an absent property). -/
structure Validatable where
  value : JsValue
  required : Option Bool := none
  minLength : Option JsNum := none
  maxLength : Option JsNum := none
  min : Option JsNum := none
  max : Option JsNum := none
deriving DecidableEq

/-- The `validate` function, line by line: start from `true`; when `required`
is truthy, conjoin `value.toString().trim().length !== 0`; when `minLength`
(resp. `maxLength`) is present and the value is a string, conjoin
`value.length > minLength` (resp. `< maxLength`); when `min` (resp. `max`) is
present and the value is a number, conjoin `value > min` (resp. `< max`). -/
def validate (input : Validatable) : Bool :=
  let isValid := true
  let isValid :=
    if input.required.getD false then
      isValid && ((jsTrim input.value.toJsString).length != 0)
    else isValid
  let isValid :=
    match input.minLength, input.value with
    | some ml, .str s => isValid && jsGt (.fin s.length) ml
    | _, _ => isValid
  let isValid :=
    match input.maxLength, input.value with
    | some ml, .str s => isValid && jsLt (.fin s.length) ml
    | _, _ => isValid
  let isValid :=
    match input.min, input.value with
    | some m, .num n => isValid && jsGt n m
    | _, _ => isValid
  let isValid :=
    match input.max, input.value with
    | some m, .num n => isValid && jsLt n m
    | _, _ => isValid
  isValid

/-- Spec form of the `required` rule: when `required` is truthy the
stringified, trimmed value must be non-empty; otherwise the rule passes. -/
def requiredOk (input : Validatable) : Bool :=
  if input.required.getD false then
    (jsTrim input.value.toJsString).length != 0
  else true

/-- Spec form of the `minLength` rule (skipped on non-string values). -/
def minLengthOk (input : Validatable) : Bool :=
  match input.minLength, input.value with
  | some ml, .str s => jsGt (.fin s.length) ml
  | _, _ => true

/-- Spec form of the `maxLength` rule (skipped on non-string values). -/
def maxLengthOk (input : Validatable) : Bool :=
  match input.maxLength, input.value with
  | some ml, .str s => jsLt (.fin s.length) ml
  | _, _ => true

/-- Spec form of the `min` rule (skipped on non-number values). -/
def minOk (input : Validatable) : Bool :=
  match input.min, input.value with
  | some m, .num n => jsGt n m
  | _, _ => true

/-- Spec form of the `max` rule (skipped on non-number values). -/
def maxOk (input : Validatable) : Bool :=
  match input.max, input.value with
  | some m, .num n => jsLt n m
  | _, _ => true

/-- The list-view kind: the constructor argument `"active" | "finished"`. -/
inductive ListKind where
  | active : ListKind
  | finished : ListKind
deriving DecidableEq

/-- The filter the `ProjectList` listener applies to a snapshot: keep the
projects whose status matches the view's kind. -/
def relevantProjects (type : ListKind) (projects : List Project) : List Project :=
  projects.filter (fun prj =>
    match type with
    | .active => prj.status == ProjectStatus.Active
    | .finished => prj.status == ProjectStatus.Finished)

/-- Every stored project has status `Active`. -/
def allActive (l : List Project) : Bool :=
  l.all (fun p => p.status == ProjectStatus.Active)

/-- The three raw form input values read by `gatherUsersInput`. -/
structure FormInputs where
  title : JsString
  description : JsString
  people : JsString
deriving DecidableEq

/-- The `validTitle` constant built in `gatherUsersInput`. -/
def validTitle (f : FormInputs) : Validatable :=
  { value := .str f.title, required := some true }

/-- The `validDescription` constant built in `gatherUsersInput`. -/
def validDescription (f : FormInputs) : Validatable :=
  { value := .str f.description, required := some true,
    minLength := some (.fin 5) }

/-- The `validPeople` constant built in `gatherUsersInput`: the headcount
coerced to a number by unary `+`, with only the `required` constraint. -/
def validPeople (f : FormInputs) : Validatable :=
  { value := .num (jsToNumber f.people), required := some true }

/-- `gatherUsersInput`: validate the three fields; on any failure show the
alert and return `undefined` (`none`); otherwise return the tuple with the
headcount coerced by unary `+`. -/
def gatherUsersInput (f : FormInputs) :
    Option (JsString × JsString × JsNum) :=
  if !validate (validTitle f) || !validate (validDescription f) ||
     !validate (validPeople f) then
    none
  else
    some (f.title, f.description, jsToNumber f.people)

/-- `clearInputs`: set all three input values to the empty string. -/
def clearInputs (_f : FormInputs) : FormInputs :=
  { title := [], description := [], people := [] }

/-- Everything observable about one run of `submitHandler`: the store
afterwards, the input fields afterwards, the notifications the store fanned
out, and whether the blocking alert was shown. -/
structure SubmitOutcome where
  store : ProjectState
  inputs : FormInputs
  notifications : List Notification
  alerted : Bool
deriving DecidableEq

/-- `submitHandler` (after `preventDefault`): gather the user input; when it
is a tuple, call `projectState.addProject` with it and clear the inputs; when
it is `undefined` the alert has been shown inside `gatherUsersInput` and
nothing else happens. -/
def submitHandler (store : ProjectState) (f : FormInputs) (r : JsNum) :
    SubmitOutcome :=
  match gatherUsersInput f with
  | some (t, d, p) =>
      let out := store.addProject r t d p
      { store := out.1, inputs := clearInputs f,
        notifications := out.2, alerted := false }
  | none =>
      { store := store, inputs := f, notifications := [], alerted := true }

/-- The static state behind `ProjectState.getInstance`: the lazily created
`instance` slot, plus an allocation counter so that object identity
(`new ProjectState()` yields a fresh reference) is observable. -/
structure StaticSlot where
  instanceSlot : Option Nat
  nextRef : Nat
deriving DecidableEq

/-- `getInstance()`: return the stored instance when present, otherwise
allocate a fresh one, store it, and return it. -/
def getInstance (rt : StaticSlot) : StaticSlot × Nat :=
  match rt.instanceSlot with
  | some i => (rt, i)
  | none => ({ instanceSlot := some rt.nextRef, nextRef := rt.nextRef + 1 },
             rt.nextRef)

lemma dropWhile_all_false (p : Char → Bool) :
    ∀ l : List Char, (∀ c ∈ l, p c = false) → l.dropWhile p = l := by
  intro l h
  cases l with
  | nil => rfl
  | cons a r =>
      have ha : p a = false := h a (by simp)
      simp [List.dropWhile_cons, ha]

lemma jsTrim_of_not_ws (l : JsString)
    (h : ∀ c ∈ l, isJsWhitespace c = false) : jsTrim l = l := by
  unfold jsTrim
  rw [dropWhile_all_false _ l h]
  rw [dropWhile_all_false _ l.reverse (by intro c hc; exact h c (by simpa using hc))]
  exact List.reverse_reverse l

lemma digitChar_not_ws (d : Nat) : isJsWhitespace (digitChar d) = false := by
  unfold digitChar
  split_ifs <;> decide

lemma natDigitsAux_not_ws :
    ∀ (fuel n : Nat) (c : Char), c ∈ natDigitsAux fuel n →
      isJsWhitespace c = false := by
  intro fuel
  induction fuel with
  | zero => intro n c hc; simp [natDigitsAux] at hc
  | succ k ih =>
      intro n c hc
      simp only [natDigitsAux] at hc
      by_cases h : n < 10
      · simp [h] at hc
        subst hc
        exact digitChar_not_ws n
      · simp [h, List.mem_append] at hc
        rcases hc with hc | hc
        · exact ih (n / 10) c hc
        · subst hc
          exact digitChar_not_ws (n % 10)

lemma natDigits_not_ws (n : Nat) (c : Char) (hc : c ∈ natDigits n) :
    isJsWhitespace c = false :=
  natDigitsAux_not_ws (n + 1) n c hc

lemma natDigits_ne_nil (n : Nat) : natDigits n ≠ [] := by
  unfold natDigits
  simp only [natDigitsAux]
  by_cases h : n < 10 <;> simp [h]

lemma fracDigits_not_ws :
    ∀ (fuel rem den : Nat) (c : Char), c ∈ fracDigits rem den fuel →
      isJsWhitespace c = false := by
  intro fuel
  induction fuel with
  | zero => intro rem den c hc; simp [fracDigits] at hc
  | succ k ih =>
      intro rem den c hc
      simp only [fracDigits] at hc
      by_cases h : rem = 0
      · simp [h] at hc
      · simp [h, List.mem_cons] at hc
        rcases hc with hc | hc
        · subst hc
          exact digitChar_not_ws _
        · exact ih _ den c hc

lemma toJsString_not_ws (n : JsNum) (c : Char) (hc : c ∈ n.toJsString) :
    isJsWhitespace c = false := by
  cases n with
  | nan =>
      exact (by decide :
        ∀ x ∈ (['N', 'a', 'N'] : List Char), isJsWhitespace x = false) c hc
  | posInf =>
      exact (by decide :
        ∀ x ∈ (['I', 'n', 'f', 'i', 'n', 'i', 't', 'y'] : List Char),
          isJsWhitespace x = false) c hc
  | negInf =>
      exact (by decide :
        ∀ x ∈ (['-', 'I', 'n', 'f', 'i', 'n', 'i', 't', 'y'] : List Char),
          isJsWhitespace x = false) c hc
  | fin q =>
      simp only [JsNum.toJsString, List.mem_append] at hc
      rcases hc with (hc | hc) | hc
      · by_cases h : q < 0
        · simp [h] at hc
          subst hc; decide
        · simp [h] at hc
      · exact natDigits_not_ws _ c hc
      · by_cases h : q.num.natAbs % q.den = 0
        · simp [h] at hc
        · simp [h, List.mem_cons] at hc
          rcases hc with hc | hc
          · subst hc; decide
          · exact fracDigits_not_ws _ _ _ c hc

lemma toJsString_ne_nil (n : JsNum) : n.toJsString ≠ [] := by
  cases n with
  | nan => simp [JsNum.toJsString]
  | posInf => simp [JsNum.toJsString]
  | negInf => simp [JsNum.toJsString]
  | fin q =>
      simp only [JsNum.toJsString]
      intro h
      rw [List.append_assoc] at h
      rcases List.append_eq_nil.mp h with ⟨_, h2⟩
      rcases List.append_eq_nil.mp h2 with ⟨h3, _⟩
      exact natDigits_ne_nil _ h3

lemma jsTrim_toJsString (n : JsNum) : jsTrim n.toJsString = n.toJsString :=
  jsTrim_of_not_ws _ (toJsString_not_ws n)

lemma jsTrim_toJsString_length_ne_zero (n : JsNum) :
    ((jsTrim (JsNum.toJsString n)).length != 0) = true := by
  rw [jsTrim_toJsString]
  simpa [bne_iff_ne, List.length_eq_zero] using toJsString_ne_nil n

lemma validate_num_required_true (n : JsNum) :
    validate { value := .num n, required := some true } = true := by
  simp [validate, JsValue.toJsString, jsTrim_toJsString_length_ne_zero]

lemma runStep_listeners_prefix (s : ProjectState) (op : StoreOp) :
    ∃ tail, (runStep s op).1.listeners = s.listeners ++ tail := by
  cases op with
  | addListener f => exact ⟨[f], rfl⟩
  | addProject r t d p => exact ⟨[], by simp [runStep, ProjectState.addProject]⟩

lemma runTrace_listeners_prefix (ops : List StoreOp) :
    ∀ s : ProjectState, ∃ tail, (runTrace s ops).1.listeners = s.listeners ++ tail := by
  induction ops with
  | nil => intro s; exact ⟨[], by simp [runTrace]⟩
  | cons op rest ih =>
      intro s
      obtain ⟨t1, h1⟩ := runStep_listeners_prefix s op
      obtain ⟨t2, h2⟩ := ih (runStep s op).1
      refine ⟨t1 ++ t2, ?_⟩
      simp [runTrace, h2, h1]

lemma mem_listeners_runTrace (ops : List StoreOp) (s : ProjectState) (f : Nat)
    (hf : f ∈ s.listeners) : f ∈ (runTrace s ops).1.listeners := by
  obtain ⟨tail, h⟩ := runTrace_listeners_prefix ops s
  rw [h]
  exact List.mem_append_left _ hf

lemma allActive_append (l1 l2 : List Project) :
    allActive (l1 ++ l2) = (allActive l1 && allActive l2) := by
  simp [allActive, List.all_append]

lemma runStep_preserves_allActive (s : ProjectState) (op : StoreOp)
    (h : allActive s.projects = true) :
    allActive (runStep s op).1.projects = true ∧
      ∀ nt ∈ (runStep s op).2, allActive nt.snapshot = true := by
  cases op with
  | addListener f => exact ⟨h, by simp [runStep]⟩
  | addProject r t d p =>
      have hnew : allActive (s.projects ++
          [{ id := r.toJsString, title := t, description := d,
             people := p, status := ProjectStatus.Active }]) = true := by
        rw [allActive_append, h]
        simp [allActive]
      constructor
      · simpa [runStep, ProjectState.addProject] using hnew
      · intro nt hnt
        simp only [runStep, ProjectState.addProject, List.mem_map] at hnt
        obtain ⟨g, _, hg⟩ := hnt
        rw [← hg]
        simpa using hnew

lemma runTrace_preserves_allActive (ops : List StoreOp) :
    ∀ s : ProjectState, allActive s.projects = true →
      allActive (runTrace s ops).1.projects = true ∧
        ∀ nt ∈ (runTrace s ops).2, allActive nt.snapshot = true := by
  induction ops with
  | nil => intro s h; exact ⟨by simpa [runTrace] using h, by simp [runTrace]⟩
  | cons op rest ih =>
      intro s h
      obtain ⟨h1, h2⟩ := runStep_preserves_allActive s op h
      obtain ⟨h3, h4⟩ := ih (runStep s op).1 h1
      refine ⟨by simpa [runTrace] using h3, ?_⟩
      intro nt hnt
      simp only [runTrace, List.mem_append] at hnt
      rcases hnt with hnt | hnt
      · exact h2 nt hnt
      · exact h4 nt hnt

lemma relevantProjects_finished_of_allActive (l : List Project)
    (h : allActive l = true) : relevantProjects .finished l = [] := by
  induction l with
  | nil => rfl
  | cons p r ih =>
      simp only [allActive, List.all_cons, Bool.and_eq_true] at h
      obtain ⟨h1, h2⟩ := h
      have hp : p.status = ProjectStatus.Active := by
        simpa using h1
      simp only [relevantProjects, List.filter_cons]
      rw [hp]
      simpa [relevantProjects, allActive] using ih h2

lemma map_listenerId_mk (l : List Nat) (snap : List Project) :
    (l.map (fun f => ({ listenerId := f, snapshot := snap } : Notification))).map
      Notification.listenerId = l := by
  induction l with
  | nil => rfl
  | cons a r ih => simp only [List.map_cons, ih]

lemma runStep_projectStateOfV3 (s : ProjectStateV3) (op : StoreOp) :
    runStep (projectStateOfV3 s) op =
      (projectStateOfV3 (runStepV3 s op).1, (runStepV3 s op).2) := by
  cases op with
  | addListener f => rfl
  | addProject r t d p => rfl

/-- C1: `addProject(t, d, n)` appends to the end of the project list a new
`Project` with the freshly drawn random identifier (stringified, hence
non-empty), the given title, description and people count, and `Active`
status; afterwards every registered subscriber is invoked exactly once with
the full new project list as snapshot, in registration order.  In particular,
after `addProject("T", "Desc text", 3)` on an empty store with subscribers
`A = 0` then `B = 1`, the invocations are `[A, B]` in that order (`A` strictly
before `B`) and each receives a list of length 1 whose sole element has
`Active` status and a non-empty id. -/
theorem C1_addProject_appends_and_notifies_in_order :
    (∀ (s : ProjectState) (r : JsNum) (t d : JsString) (p : JsNum),
      (s.addProject r t d p).1.listeners = s.listeners ∧
      (s.addProject r t d p).1.projects =
        s.projects ++ [{ id := r.toJsString, title := t, description := d,
                         people := p, status := .Active }] ∧
      (s.addProject r t d p).2 =
        s.listeners.map (fun f =>
          { listenerId := f,
            snapshot := s.projects ++
              [{ id := r.toJsString, title := t, description := d,
                 people := p, status := .Active }] }) ∧
      (s.addProject r t d p).2.map Notification.listenerId = s.listeners ∧
      JsNum.toJsString r ≠ []) ∧
    ((runTrace ProjectState.initial
        [.addListener 0, .addListener 1,
         .addProject (.fin (mkRat 1 2)) ['T'] "Desc text".data (.fin 3)]).2.map
          Notification.listenerId = [0, 1] ∧
     (runTrace ProjectState.initial
        [.addListener 0, .addListener 1,
         .addProject (.fin (mkRat 1 2)) ['T'] "Desc text".data (.fin 3)]).2.all
        (fun nt => nt.snapshot.length == 1 &&
           nt.snapshot.all (fun pr =>
             pr.status == ProjectStatus.Active && pr.id.length != 0)) = true) := by
  constructor
  · intro s r t d p
    refine ⟨rfl, rfl, rfl, ?_, toJsString_ne_nil r⟩
    exact map_listenerId_mk s.listeners _
  · exact ⟨by decide, by decide⟩

/-- C2: `validate` is a pure function equal to the conjunction of the rules
for the constraints present in its input; the `required` rule rejects values
whose stringified, trimmed form is empty (`validate({required: true,
value: ""})` is false), and the string-length comparisons are strict, so a
string whose length equals `minLength` is rejected: `validate({value: "ab",
minLength: 2})` is false while `validate({value: "abc", minLength: 2})` is
true, and in general every string fails a `minLength` equal to its length. -/
theorem C2_validate_conjunction_strict_boundaries :
    (∀ i : Validatable,
      validate i =
        (requiredOk i && minLengthOk i && maxLengthOk i && minOk i && maxOk i)) ∧
    validate { value := .str [], required := some true } = false ∧
    validate { value := .str ['a', 'b'], minLength := some (.fin 2) } = false ∧
    validate { value := .str ['a', 'b', 'c'], minLength := some (.fin 2) } = true ∧
    (∀ s : JsString,
      validate { value := .str s, minLength := some (.fin (s.length : ℚ)) } = false) := by
  refine ⟨?_, by decide, by decide, by decide, ?_⟩
  · intro i
    obtain ⟨v, req, minL, maxL, mi, ma⟩ := i
    rcases v with s | n <;> rcases req with _ | rb <;>
      rcases minL with _ | ml <;> rcases maxL with _ | mL <;>
      rcases mi with _ | m1 <;> rcases ma with _ | m2 <;>
      try cases rb
    all_goals
      simp [validate, requiredOk, minLengthOk, maxLengthOk, minOk, maxOk,
            Bool.and_assoc]
  · intro s
    simp [validate, jsGt, jsLt, lt_irrefl]

/-- C3: with a `min` constraint `m`, `validate` on a number value `n` passes
the min check exactly when `n > m` strictly, and with a `max` constraint `M`
exactly when `n < M` strictly; in particular `min = 0` rejects the value 0. -/
theorem C3_numeric_min_max_strict :
    (∀ n m : JsNum, validate { value := .num n, min := some m } = jsGt n m) ∧
    (∀ n M : JsNum, validate { value := .num n, max := some M } = jsLt n M) ∧
    validate { value := .num (.fin 0), min := some (.fin 0) } = false := by
  exact ⟨fun n m => rfl, fun n M => rfl, by decide⟩

/-- C4: in every state reachable from the empty store by `addListener` and
`addProject` calls, every stored `Project` has status `Active`; filtering the
stored list — or any snapshot handed to a subscriber — for `Finished`, as the
"finished" list view does, always yields the empty list. -/
theorem C4_all_projects_active_finished_view_empty :
    ∀ ops : List StoreOp,
      allActive (runTrace ProjectState.initial ops).1.projects = true ∧
      relevantProjects .finished (runTrace ProjectState.initial ops).1.projects = [] ∧
      (runTrace ProjectState.initial ops).2.all
        (fun nt => (relevantProjects .finished nt.snapshot).isEmpty) = true := by
  intro ops
  obtain ⟨h1, h2⟩ := runTrace_preserves_allActive ops ProjectState.initial (by decide)
  refine ⟨h1, relevantProjects_finished_of_allActive _ h1, ?_⟩
  rw [List.all_eq_true]
  intro nt hnt
  have h3 := relevantProjects_finished_of_allActive _ (h2 nt hnt)
  simp [h3]

/-- C5 counterexample: the three versions are not all behaviourally
equivalent.  On the concrete call sequence `addListener(A)` then
`addProject("T", "Desc text", 3)`, version 2 performs one subscriber
notification, while version 1 cannot even run the sequence: its `addListener`
is commented out, so the first call fails (and no version-1 run ever notifies
anybody). -/
theorem C5_counterexample_version1_not_equivalent :
    runTraceV1 { projects := [] }
        [.addListener 0, .addProject (.fin 0) ['T'] "Desc text".data (.fin 3)]
      = none ∧
    (runTrace ProjectState.initial
        [.addListener 0, .addProject (.fin 0) ['T'] "Desc text".data (.fin 3)]).2.length
      = 1 := by
  exact ⟨by decide, by decide⟩

/-- C5 amended: versions 2 and 3 of `ProjectState` are behaviourally
equivalent — their initial states correspond, and the same sequence of
`addListener` / `addProject` calls from corresponding states produces
corresponding stored states and identical subscriber notifications.
(Version 1 is excluded: it has no listener mechanism and its stored projects
carry no status, as the counterexample shows.) -/
theorem C5_amended_v2_v3_equivalent :
    projectStateOfV3 ProjectStateV3.initial = ProjectState.initial ∧
    ∀ (ops : List StoreOp) (s : ProjectStateV3),
      runTrace (projectStateOfV3 s) ops =
        (projectStateOfV3 (runTraceV3 s ops).1, (runTraceV3 s ops).2) := by
  refine ⟨rfl, ?_⟩
  intro ops
  induction ops with
  | nil => intro s; rfl
  | cons op rest ih =>
      intro s
      simp only [runTrace, runTraceV3, runStep_projectStateOfV3, ih]

/-- C6: for every triple of raw form inputs, when all three field validations
pass the submit handler calls the store's `addProject` with the title, the
description and the headcount coerced to a number, and clears all three
inputs; when any validation fails it shows the blocking alert, leaves the
store's project list unchanged with no notification fired, and the inputs
keep their values. -/
theorem C6_submit_validates_then_adds_or_alerts :
    ∀ (store : ProjectState) (f : FormInputs) (r : JsNum),
      submitHandler store f r =
        if validate (validTitle f) && validate (validDescription f) &&
           validate (validPeople f) then
          { store := (store.addProject r f.title f.description (jsToNumber f.people)).1,
            inputs := { title := [], description := [], people := [] },
            notifications :=
              (store.addProject r f.title f.description (jsToNumber f.people)).2,
            alerted := false }
        else
          { store := store, inputs := f, notifications := [], alerted := true } := by
  intro store f r
  cases h1 : validate (validTitle f) <;>
    cases h2 : validate (validDescription f) <;>
    cases h3 : validate (validPeople f) <;>
    simp [submitHandler, gatherUsersInput, clearInputs, h1, h2, h3]

/-- C7: `getInstance` is idempotent — the first call on an empty slot creates
the single store instance, and calling `getInstance` again after any call
returns exactly what that call returned (the identical reference, with the
static state unchanged). -/
theorem C7_getInstance_idempotent :
    ∀ rt : StaticSlot,
      getInstance (getInstance rt).1 = getInstance rt ∧
      (∀ n : Nat, getInstance { instanceSlot := none, nextRef := n } =
        ({ instanceSlot := some n, nextRef := n + 1 }, n)) := by
  intro rt
  constructor
  · rcases rt with ⟨slot, nr⟩
    cases slot with
    | none => rfl
    | some i => rfl
  · intro n; rfl

/-- C8: `addListener(f)` appends `f` to the subscriber list and changes
nothing else — the project list is untouched and no subscriber (including `f`)
is invoked at registration time; and after any further sequence of store
operations, an `addProject` call invokes exactly the registered subscribers in
order, `f` among them. -/
theorem C8_addListener_appends_only_then_subscribed :
    ∀ (s : ProjectState) (f : Nat),
      s.addListener f = { listeners := s.listeners ++ [f], projects := s.projects } ∧
      runStep s (.addListener f) = (s.addListener f, []) ∧
      ∀ (ops : List StoreOp) (r : JsNum) (t d : JsString) (p : JsNum),
        ((runTrace (s.addListener f) ops).1.addProject r t d p).2.map
            Notification.listenerId =
          (runTrace (s.addListener f) ops).1.listeners ∧
        f ∈ ((runTrace (s.addListener f) ops).1.addProject r t d p).2.map
            Notification.listenerId := by
  intro s f
  refine ⟨rfl, rfl, ?_⟩
  intro ops r t d p
  have hmap : ((runTrace (s.addListener f) ops).1.addProject r t d p).2.map
      Notification.listenerId = (runTrace (s.addListener f) ops).1.listeners :=
    map_listenerId_mk _ _
  refine ⟨hmap, ?_⟩
  rw [hmap]
  exact mem_listeners_runTrace ops _ f (by simp [ProjectState.addListener])

/-- C9: the headcount field is checked with only the `required` constraint,
and `validate({value: n, required: true})` is true for every JavaScript
number `n` — including 0, negatives, and the NaN produced by coercing a
non-numeric input string — because the string form of any number is non-empty
after trimming; so any numeric headcount is accepted. -/
theorem C9_people_required_only_any_number_accepted :
    (∀ f : FormInputs, validPeople f =
      { value := .num (jsToNumber f.people), required := some true,
        minLength := none, maxLength := none, min := none, max := none }) ∧
    (∀ n : JsNum, validate { value := .num n, required := some true } = true) ∧
    jsToNumber ['a', 'b', 'c'] = .nan ∧
    validate { value := .num .nan, required := some true } = true ∧
    validate { value := .num (.fin 0), required := some true } = true ∧
    validate { value := .num (.fin (-3)), required := some true } = true ∧
    (∀ f : FormInputs, validate (validPeople f) = true) := by
  refine ⟨fun f => rfl, validate_num_required_true, by decide, by decide, by decide,
    by decide, fun f => validate_num_required_true (jsToNumber f.people)⟩

/-- C10: constraints whose type does not match the value are silently skipped:
`minLength` / `maxLength` are ignored on number values (for example
`validate({value: 3, minLength: 10})` is true) and `min` / `max` are ignored
on string values (for example `validate({value: "abc", min: 100})` is
true). -/
theorem C10_type_mismatched_constraints_skipped :
    (∀ (n k : JsNum), validate { value := .num n, minLength := some k } = true) ∧
    (∀ (n k : JsNum), validate { value := .num n, maxLength := some k } = true) ∧
    (∀ (s : JsString) (m : JsNum), validate { value := .str s, min := some m } = true) ∧
    (∀ (s : JsString) (m : JsNum), validate { value := .str s, max := some m } = true) ∧
    validate { value := .num (.fin 3), minLength := some (.fin 10) } = true ∧
    validate { value := .str ['a', 'b', 'c'], min := some (.fin 100) } = true := by
  exact ⟨fun n k => rfl, fun n k => rfl, fun s m => rfl, fun s m => rfl,
    by decide, by decide⟩
